import Mathlib

/-!
Verification development for the YouTube trending collection/analysis scripts
(`analyze_trending.py`, `main.py`, `db/firebase_storage.py`).

The core under study is
  * `fetch_trending_videos` — the paginated fetch loop with checkpoint resume,
  * `analyze_videos` — the duration-based classification / aggregation pass,
together with the helpers `get_category_name` and `save_checkpoint`.

Machine integers and floats of the source are modelled as `Nat` / `ℚ`
(durations carry sub-second fractions, so they are rationals); dictionary
lookups with defaults become `Option` with explicit defaulting; exceptions
become explicit error constructors.  The side effects of the collector
(page requests over the network, checkpoint writes, sleeps) are modelled by
an oracle stream of page outcomes consumed one per request and by traces of
the checkpoints written, the page tokens requested and the sleeps performed.
-/

/-! ## Raw data model

A `RawItem` models one element of the `items` array returned per page by the
YouTube API.  Per the data-model invariant, `id` and the `snippet` fields are
always present; the `statistics` object may be absent, and each of its count
fields may be absent (counts are non-negative when present).  The
`contentDetails.duration` string may be absent (`durationStr = none` models a
missing key, which raises `KeyError` in the source). -/

structure Snippet where
  title : String
  channelTitle : String
  publishedAt : String
  categoryId : String
deriving Repr, DecidableEq

structure Statistics where
  viewCount : Option Nat
  likeCount : Option Nat
  commentCount : Option Nat
deriving Repr, DecidableEq

structure RawItem where
  id : String
  snippet : Snippet
  statistics : Option Statistics
  durationStr : Option String
deriving Repr, DecidableEq

/-! ## ISO-8601 duration parsing

`isodate.parse_duration` matches the string against
`^([+-])?P(?!\b)(yY)?(mM)?(wW)?(dD)?(T(hH)?(mM)?(sS)?)?$` where each
component is `[0-9]+([,.][0-9]+)?` followed by its designator, and then
`timedelta.total_seconds()` is taken.  Years and months contribute nothing to
`total_seconds` (when they are non-zero, `isodate` returns a `Duration`
object whose `total_seconds` delegates to the embedded `timedelta`, which
holds only the week/day/hour/minute/second part), so the resulting number of
seconds is `sign * (604800*w + 86400*d + 3600*h + 60*m + s)` in every parsed
case.  The alternative `PYYYY-MM-DDThh:mm:ss` form is not modelled (treated
as unparsable).  `parse_duration` returns `none` exactly when the source
raises `ISO8601Error`. -/

def digitsToNat (ds : List Char) : Nat :=
  ds.foldl (fun n c => 10 * n + (c.toNat - 48)) 0

def takeDigits : List Char → List Char × List Char
  | [] => ([], [])
  | c :: cs =>
    if c.isDigit then
      let (ds, rest) := takeDigits cs
      (c :: ds, rest)
    else ([], c :: cs)

/-- Parse `[0-9]+([,.][0-9]+)?` as a scaled decimal `(mantissa, scale)`
denoting `mantissa / 10 ^ scale`, returning the rest of the input.  (Scaled
`Nat` arithmetic is used throughout the parser because the rational value is
only assembled once at the end, with `mkRat`.) -/
def parseDecimal (cs : List Char) : Option ((Nat × Nat) × List Char) :=
  let (ds, rest) := takeDigits cs
  if ds = [] then none
  else
    match rest with
    | c :: rest2 =>
      if c = '.' ∨ c = ',' then
        let (fs, rest3) := takeDigits rest2
        if fs = [] then none
        else some ((digitsToNat ds * 10 ^ fs.length + digitsToNat fs, fs.length), rest3)
      else some ((digitsToNat ds, 0), rest)
    | [] => some ((digitsToNat ds, 0), [])

/-- Parse one optional component `number d` as a scaled decimal.  When the
input does not start with a number followed by the designator `d`, the
component is absent: its value is 0 and no input is consumed (the regex
group is optional). -/
def parseComp (d : Char) (cs : List Char) : (Nat × Nat) × List Char :=
  match parseDecimal cs with
  | some (q, rest) =>
    match rest with
    | c :: rest2 => if c = d then (q, rest2) else ((0, 0), cs)
    | [] => ((0, 0), cs)
  | none => ((0, 0), cs)

/-- `sign * (604800*w + 86400*d + 3600*h + 60*mi + s)` where each component
is a scaled decimal `mantissa / 10 ^ scale`, assembled as one exact rational
over the common denominator `10 ^ E`. -/
def compTotal (sgn : Int) (w d h mi s : Nat × Nat) : ℚ :=
  let E := max w.2 (max d.2 (max h.2 (max mi.2 s.2)))
  let numer : Nat :=
    604800 * w.1 * 10 ^ (E - w.2) + 86400 * d.1 * 10 ^ (E - d.2) +
      3600 * h.1 * 10 ^ (E - h.2) + 60 * mi.1 * 10 ^ (E - mi.2) + s.1 * 10 ^ (E - s.2)
  mkRat (sgn * numer) (10 ^ E)

/-- `isodate.parse_duration` followed by `.total_seconds()`, as an exact
rational number of seconds; `none` models a raised `ISO8601Error`. -/
def parse_duration (s : String) : Option ℚ :=
  let cs := s.data
  let (sgn, cs1) : Int × List Char :=
    match cs with
    | '-' :: rest => (-1, rest)
    | '+' :: rest => (1, rest)
    | _ => (1, cs)
  match cs1 with
  | 'P' :: rest =>
    if rest = [] then none
    else
      let (_y, r1) := parseComp 'Y' rest
      let (_mo, r2) := parseComp 'M' r1
      let (w, r3) := parseComp 'W' r2
      let (d, r4) := parseComp 'D' r3
      match r4 with
      | 'T' :: r5 =>
        let (h, r6) := parseComp 'H' r5
        let (mi, r7) := parseComp 'M' r6
        let (sec, r8) := parseComp 'S' r7
        if r8 = [] then some (compTotal sgn w d h mi sec) else none
      | [] => some (compTotal sgn w d (0, 0) (0, 0) (0, 0))
      | _ => none
  | _ => none

/-! ## Category table -/

/-- The `YOUTUBE_CATEGORIES` mapping of `analyze_trending.py`. -/
def YOUTUBE_CATEGORIES : List (String × String) :=
  [("1", "Film & Animation"),
   ("2", "Autos & Vehicles"),
   ("10", "Music"),
   ("15", "Pets & Animals"),
   ("17", "Sports"),
   ("19", "Travel & Events"),
   ("20", "Gaming"),
   ("22", "People & Blogs"),
   ("23", "Comedy"),
   ("24", "Entertainment"),
   ("25", "News & Politics"),
   ("26", "Howto & Style"),
   ("27", "Education"),
   ("28", "Science & Technology"),
   ("29", "Nonprofits & Activism")]

/-- `get_category_name`: dictionary lookup with an "Unknown Category (id)"
fallback (`YOUTUBE_CATEGORIES.get(str(category_id), f"Unknown Category ({category_id})")`). -/
def get_category_name (category_id : String) : String :=
  match YOUTUBE_CATEGORIES.lookup category_id with
  | some n => n
  | none => "Unknown Category (" ++ category_id ++ ")"

/-! ## The classification / aggregation pass (`analyze_videos`) -/

/-- The `video_data` dict built per item inside `analyze_videos`. -/
structure VideoData where
  title : String
  channel : String
  url : String
  duration : ℚ
  views : Nat
  likes : Nat
  comments : Nat
  publishedAt : String
  categoryId : String
  categoryName : String
deriving Repr, DecidableEq

/-- The dict returned by `analyze_videos`.  `category_stats` is the
`defaultdict(int)` as an association list in first-occurrence order. -/
structure AnalysisResult where
  shorts : List VideoData
  regular_videos : List VideoData
  category_stats : List (String × Nat)
deriving Repr, DecidableEq

/-- One outcome of `analyze_videos`:  the source returns `None` on an empty
input (`empty`), raises out of the loop when a duration is absent or
unparsable (`err`), and otherwise returns the result dict. -/
inductive AnalyzeResult where
  | empty
  | err
  | ok (r : AnalysisResult)
deriving Repr, DecidableEq

/-- `category_stats[k] += 1` on a `defaultdict(int)`: an absent key is
created (at 0) and incremented to 1, a present key is incremented in place,
preserving insertion order. -/
def bump (k : String) : List (String × Nat) → List (String × Nat)
  | [] => [(k, 1)]
  | (k', n) :: rest => if k' = k then (k', n + 1) :: rest else (k', n) :: bump k rest

/-- The `video_data` construction for one item (lines 172–189 of
`analyze_trending.py`): duration parse, statistics defaulting via
`stats.get(field, 0)`, canonical `https://youtu.be/<id>` URL and resolved
category name.  `none` models the exception raised when the duration field
is absent (`KeyError`) or unparsable (`ISO8601Error`). -/
def normalize_item (vid : RawItem) : Option VideoData :=
  match vid.durationStr with
  | none => none
  | some ds =>
    match parse_duration ds with
    | none => none
    | some sec =>
      some
        { title := vid.snippet.title
          channel := vid.snippet.channelTitle
          url := "https://youtu.be/" ++ vid.id
          duration := sec
          views := (match vid.statistics with
                    | none => 0
                    | some st => st.viewCount.getD 0)
          likes := (match vid.statistics with
                    | none => 0
                    | some st => st.likeCount.getD 0)
          comments := (match vid.statistics with
                       | none => 0
                       | some st => st.commentCount.getD 0)
          publishedAt := vid.snippet.publishedAt
          categoryId := vid.snippet.categoryId
          categoryName := get_category_name vid.snippet.categoryId }

/-- The `for vid in videos` loop of `analyze_videos`, carrying the three
accumulators; appends preserve input order exactly as the Python `append`
calls do, and processing aborts at the first malformed duration. -/
def analyzeLoop (shorts regular : List VideoData) (cstats : List (String × Nat)) :
    List RawItem → AnalyzeResult
  | [] => .ok ⟨shorts, regular, cstats⟩
  | vid :: rest =>
    match normalize_item vid with
    | none => .err
    | some v =>
      if v.duration ≤ 60 then
        analyzeLoop (shorts ++ [v]) regular (bump vid.snippet.categoryId cstats) rest
      else
        analyzeLoop shorts (regular ++ [v]) (bump vid.snippet.categoryId cstats) rest

/-- `analyze_videos(videos)`: `None` on empty input, otherwise the single
pass over the items. -/
def analyze_videos (videos : List RawItem) : AnalyzeResult :=
  if videos = [] then .empty else analyzeLoop [] [] [] videos

/-! ## The collector (`fetch_trending_videos`)

Side effects are modelled explicitly: the remote API is an oracle stream of
`PageOutcome`s consumed one per page request; checkpoint writes, the page
tokens requested and the sleeps performed are returned as traces.  The wall
clock is a function `times : Nat → Nat` giving the timestamp observed at the
`k`-th page request. -/

/-- A loaded checkpoint, as consumed at collector startup
(`checkpoint.get('videos', [])`, `checkpoint.get('next_page_token')`).
Absent keys are modelled by the corresponding default values. -/
structure CheckpointState where
  videos : List RawItem
  next_page_token : Option String
deriving Repr, DecidableEq

/-- A value of the `checkpoint_data` dict. -/
inductive CheckpointVal where
  | videosV (v : List RawItem)
  | tokenV (t : Option String)
  | timestampV (t : Nat)
deriving Repr, DecidableEq

/-- The `checkpoint_data` dict built after a successful page fetch (lines
125–129 of `analyze_trending.py`): exactly the keys `videos`,
`next_page_token` and `timestamp`, in that order. -/
def checkpoint_data (all_items : List RawItem) (tok : Option String) (now : Nat) :
    List (String × CheckpointVal) :=
  [("videos", .videosV all_items),
   ("next_page_token", .tokenV tok),
   ("timestamp", .timestampV now)]

/-- One outcome of `request.execute()`: a page of items with an optional
next-page token, or a raised exception (`isQuota` marks a quota-exceeded
error — the YouTube client surfaces it as an `HttpError` like any other). -/
inductive PageOutcome where
  | success (items : List RawItem) (nextPageToken : Option String)
  | failure (isQuota : Bool)
deriving Repr, DecidableEq

/-- The value returned by `fetch_trending_videos`: `configError` models the
`return None` on a missing API key, `ok` a returned item list, and `looping`
the state in which the oracle stream is exhausted while the loop still wants
to issue another request (the loop has not terminated). -/
inductive FetchResult where
  | configError
  | ok (items : List RawItem)
  | looping
deriving Repr, DecidableEq

/-- A run of the collector: its return value plus the traces of checkpoint
dicts written by `save_checkpoint`, of the `pageToken` values used by the
page requests (in order), and of the durations passed to `time.sleep`. -/
structure FetchRun where
  result : FetchResult
  checkpoints : List (List (String × CheckpointVal))
  reqTokens : List (Option String)
  sleeps : List Nat
deriving Repr, DecidableEq

/-- Python truthiness of the next-page token: `not next_page_token` is true
for `None` and for the empty string. -/
def tokFalsy : Option String → Bool
  | none => true
  | some s => s == ""

/-- The `while len(all_items) < total_videos` loop of
`fetch_trending_videos`.  Each iteration issues one page request (consuming
one oracle outcome).  On success the items are appended, a checkpoint is
saved, and the loop breaks if the token is falsy or the target is reached,
else sleeps `delay`; on any exception the loop sleeps `2 * delay` and
retries with the same token.  Both loop exits return
`all_items[:total_videos]`. -/
def fetch_loop (total_videos delay : Nat) (times : Nat → Nat) :
    List PageOutcome → List RawItem → Option String → Nat → FetchRun
  | outcomes, all_items, tok, k =>
    if all_items.length < total_videos then
      match outcomes with
      | [] => ⟨.looping, [], [], []⟩
      | .success items ntok :: rest =>
        let acc := all_items ++ items
        let cp := checkpoint_data acc ntok (times k)
        if tokFalsy ntok ∨ total_videos ≤ acc.length then
          ⟨.ok (acc.take total_videos), [cp], [tok], []⟩
        else
          let r := fetch_loop total_videos delay times rest acc ntok (k + 1)
          ⟨r.result, cp :: r.checkpoints, tok :: r.reqTokens, delay :: r.sleeps⟩
      | .failure _ :: rest =>
        let r := fetch_loop total_videos delay times rest all_items tok (k + 1)
        ⟨r.result, r.checkpoints, tok :: r.reqTokens, (2 * delay) :: r.sleeps⟩
    else ⟨.ok (all_items.take total_videos), [], [], []⟩

/-- `fetch_trending_videos(total_videos, ..., delay, ...)`: `None` when the
API key is missing (Python falsiness: absent or empty string); otherwise
seed the accumulator and token from the loaded checkpoint (if any) and run
the fetch loop. -/
def fetch_trending_videos (total_videos delay : Nat) (apiKey : Option String)
    (checkpoint : Option CheckpointState) (outcomes : List PageOutcome)
    (times : Nat → Nat) : FetchRun :=
  match apiKey with
  | none => ⟨.configError, [], [], []⟩
  | some key =>
    if key = "" then ⟨.configError, [], [], []⟩
    else
      let all_items := match checkpoint with | some cp => cp.videos | none => []
      let tok := match checkpoint with | some cp => cp.next_page_token | none => none
      fetch_loop total_videos delay times outcomes all_items tok 0

/-- The items carried by the successful pages of an outcome stream, in
stream order. -/
def successItems : List PageOutcome → List RawItem
  | [] => []
  | .success items _ :: rest => items ++ successItems rest
  | .failure _ :: rest => successItems rest

/-- One checkpoint snapshot per successful page fetch, holding the items
accumulated so far (starting from `acc`), the token that came with that
page, and the clock value at that request — the persistence schedule the
specification prescribes, stated independently of the loop's stopping
logic. -/
def expected_cps (times : Nat → Nat) :
    List PageOutcome → List RawItem → Nat → List (List (String × CheckpointVal))
  | [], _, _ => []
  | .failure _ :: rest, acc, k => expected_cps times rest acc (k + 1)
  | .success items ntok :: rest, acc, k =>
    checkpoint_data (acc ++ items) ntok (times k) :: expected_cps times rest (acc ++ items) (k + 1)

/-! ## Derived notions used by the statements -/

/-- Sum of the counts of a category-stats mapping. -/
def statsSum (l : List (String × Nat)) : Nat :=
  (l.map Prod.snd).sum

/-- The category counters produced by folding `category_stats[id] += 1`
over the items, starting from `init`. -/
def statsOf (init : List (String × Nat)) (vs : List RawItem) : List (String × Nat) :=
  vs.foldl (fun acc vid => bump vid.snippet.categoryId acc) init

/-- The normalized records of the items whose duration is ≤ 60 s, in input
order. -/
def shortRecords (vs : List RawItem) : List VideoData :=
  vs.filterMap fun vid => (normalize_item vid).filter fun v => decide (v.duration ≤ 60)

/-- The normalized records of the items whose duration is > 60 s, in input
order. -/
def regularRecords (vs : List RawItem) : List VideoData :=
  vs.filterMap fun vid => (normalize_item vid).filter fun v => decide (60 < v.duration)

/-! ## Lemmas about the aggregation pass -/

theorem bump_sum (k : String) (l : List (String × Nat)) :
    statsSum (bump k l) = statsSum l + 1 := by
  induction l with
  | nil => simp [bump, statsSum]
  | cons p rest ih =>
    obtain ⟨k', n⟩ := p
    by_cases h : k' = k <;> simp [bump, h, statsSum] at ih ⊢ <;> omega

theorem bump_pos (k : String) (l : List (String × Nat))
    (h : ∀ p ∈ l, 1 ≤ p.2) : ∀ p ∈ bump k l, 1 ≤ p.2 := by
  induction l with
  | nil => simp [bump]
  | cons q rest ih =>
    obtain ⟨k', n⟩ := q
    intro p hp
    by_cases hk : k' = k
    · simp [bump, hk] at hp
      rcases hp with h1 | h2
      · subst h1; simp
      · exact h p (by simp [h2])
    · simp [bump, hk] at hp
      rcases hp with h1 | h2
      · subst h1; exact h (k', n) (by simp)
      · exact ih (fun q hq => h q (by simp [hq])) p h2

theorem statsOf_sum (vs : List RawItem) :
    ∀ init, statsSum (statsOf init vs) = statsSum init + vs.length := by
  induction vs with
  | nil => intro init; simp [statsOf]
  | cons vid rest ih =>
    intro init
    show statsSum (statsOf (bump vid.snippet.categoryId init) rest) = _
    rw [ih, bump_sum]
    simp; omega

theorem statsOf_pos (vs : List RawItem) :
    ∀ init, (∀ p ∈ init, 1 ≤ p.2) → ∀ p ∈ statsOf init vs, 1 ≤ p.2 := by
  induction vs with
  | nil => intro init h; simpa [statsOf] using h
  | cons vid rest ih =>
    intro init h
    exact ih _ (bump_pos _ _ h)

/-- Structure of a successful `analyzeLoop` run: the final lists extend the
accumulators by the classified records in input order, and the counters are
the fold of `bump` over the items. -/
theorem analyzeLoop_spec (vs : List RawItem) :
    ∀ (sh rg : List VideoData) (cs : List (String × Nat)) (r : AnalysisResult),
      analyzeLoop sh rg cs vs = .ok r →
      r.shorts = sh ++ shortRecords vs ∧
      r.regular_videos = rg ++ regularRecords vs ∧
      r.category_stats = statsOf cs vs := by
  induction vs with
  | nil =>
    intro sh rg cs r h
    simp [analyzeLoop] at h
    simp [← h, shortRecords, regularRecords, statsOf]
  | cons vid rest ih =>
    intro sh rg cs r h
    rw [analyzeLoop] at h
    cases hn : normalize_item vid with
    | none => rw [hn] at h; exact absurd h (by simp)
    | some v =>
      rw [hn] at h
      dsimp only at h
      by_cases hd : v.duration ≤ 60
      · rw [if_pos hd] at h
        obtain ⟨h1, h2, h3⟩ := ih _ _ _ _ h
        refine ⟨?_, ?_, h3⟩
        · rw [h1]
          simp [shortRecords, List.filterMap_cons, hn, Option.filter, hd]
        · rw [h2]
          simp [regularRecords, List.filterMap_cons, hn, Option.filter, not_lt.mpr hd]
      · rw [if_neg hd] at h
        obtain ⟨h1, h2, h3⟩ := ih _ _ _ _ h
        refine ⟨?_, ?_, h3⟩
        · rw [h1]
          simp [shortRecords, List.filterMap_cons, hn, Option.filter, hd]
        · rw [h2]
          simp [regularRecords, List.filterMap_cons, hn, Option.filter, lt_of_not_le hd]

/-- A successful `analyzeLoop` run normalized every item. -/
theorem analyzeLoop_ok_normalize (vs : List RawItem) :
    ∀ (sh rg : List VideoData) (cs : List (String × Nat)) (r : AnalysisResult),
      analyzeLoop sh rg cs vs = .ok r →
      ∀ vid ∈ vs, (normalize_item vid).isSome = true := by
  induction vs with
  | nil => intro _ _ _ _ _ vid hv; simp at hv
  | cons v0 rest ih =>
    intro sh rg cs r h vid hv
    rw [analyzeLoop] at h
    cases hn : normalize_item v0 with
    | none => rw [hn] at h; exact absurd h (by simp)
    | some v =>
      rw [hn] at h
      dsimp only at h
      rcases List.mem_cons.1 hv with h1 | h2
      · subst h1; simp [hn]
      · by_cases hd : v.duration ≤ 60
        · rw [if_pos hd] at h; exact ih _ _ _ _ h vid h2
        · rw [if_neg hd] at h; exact ih _ _ _ _ h vid h2

/-- Every item that normalizes lands in exactly one of the two record lists. -/
theorem records_length (vs : List RawItem)
    (h : ∀ vid ∈ vs, (normalize_item vid).isSome = true) :
    (shortRecords vs).length + (regularRecords vs).length = vs.length := by
  induction vs with
  | nil => simp [shortRecords, regularRecords]
  | cons vid rest ih =>
    cases hn : normalize_item vid with
    | none => exact absurd (h vid (by simp)) (by simp [hn])
    | some v =>
      have hrest := ih (fun x hx => h x (by simp [hx]))
      by_cases hd : v.duration ≤ 60
      · simp [shortRecords, regularRecords, List.filterMap_cons, hn, Option.filter, hd,
          not_lt.mpr hd] at hrest ⊢
        omega
      · simp [shortRecords, regularRecords, List.filterMap_cons, hn, Option.filter, hd,
          lt_of_not_le hd] at hrest ⊢
        omega

/-! ## Lemmas about the fetch loop -/

theorem fetch_loop_done (total delay : Nat) (times : Nat → Nat)
    (outcomes : List PageOutcome) (ai : List RawItem) (tok : Option String) (k : Nat)
    (h : ¬ ai.length < total) :
    fetch_loop total delay times outcomes ai tok k = ⟨.ok (ai.take total), [], [], []⟩ := by
  rw [fetch_loop.eq_def]
  dsimp only
  rw [if_neg h]

theorem fetch_loop_nil (total delay : Nat) (times : Nat → Nat)
    (ai : List RawItem) (tok : Option String) (k : Nat)
    (h : ai.length < total) :
    fetch_loop total delay times [] ai tok k = ⟨.looping, [], [], []⟩ := by
  rw [fetch_loop.eq_def]
  dsimp only
  rw [if_pos h]

theorem fetch_loop_success_exit (total delay : Nat) (times : Nat → Nat)
    (items : List RawItem) (ntok : Option String) (rest : List PageOutcome)
    (ai : List RawItem) (tok : Option String) (k : Nat)
    (h : ai.length < total) (hexit : tokFalsy ntok ∨ total ≤ (ai ++ items).length) :
    fetch_loop total delay times (.success items ntok :: rest) ai tok k =
      ⟨.ok ((ai ++ items).take total),
       [checkpoint_data (ai ++ items) ntok (times k)], [tok], []⟩ := by
  rw [fetch_loop.eq_def]
  dsimp only
  rw [if_pos h, if_pos hexit]

theorem fetch_loop_success_cont (total delay : Nat) (times : Nat → Nat)
    (items : List RawItem) (ntok : Option String) (rest : List PageOutcome)
    (ai : List RawItem) (tok : Option String) (k : Nat)
    (h : ai.length < total) (hexit : ¬ (tokFalsy ntok ∨ total ≤ (ai ++ items).length)) :
    fetch_loop total delay times (.success items ntok :: rest) ai tok k =
      ⟨(fetch_loop total delay times rest (ai ++ items) ntok (k + 1)).result,
       checkpoint_data (ai ++ items) ntok (times k) ::
         (fetch_loop total delay times rest (ai ++ items) ntok (k + 1)).checkpoints,
       tok :: (fetch_loop total delay times rest (ai ++ items) ntok (k + 1)).reqTokens,
       delay :: (fetch_loop total delay times rest (ai ++ items) ntok (k + 1)).sleeps⟩ := by
  rw [fetch_loop.eq_def]
  dsimp only
  rw [if_pos h, if_neg hexit]

theorem fetch_loop_failure (total delay : Nat) (times : Nat → Nat)
    (b : Bool) (rest : List PageOutcome)
    (ai : List RawItem) (tok : Option String) (k : Nat)
    (h : ai.length < total) :
    fetch_loop total delay times (.failure b :: rest) ai tok k =
      ⟨(fetch_loop total delay times rest ai tok (k + 1)).result,
       (fetch_loop total delay times rest ai tok (k + 1)).checkpoints,
       tok :: (fetch_loop total delay times rest ai tok (k + 1)).reqTokens,
       2 * delay :: (fetch_loop total delay times rest ai tok (k + 1)).sleeps⟩ := by
  rw [fetch_loop.eq_def]
  dsimp only
  rw [if_pos h]

/-- Every list the fetch loop returns is truncated to at most `total`
items (both loop exits return `all_items[:total_videos]`). -/
theorem fetch_loop_ok_length (total delay : Nat) (times : Nat → Nat) :
    ∀ (outcomes : List PageOutcome) (ai : List RawItem) (tok : Option String) (k : Nat)
      (out : List RawItem),
      (fetch_loop total delay times outcomes ai tok k).result = .ok out →
      out.length ≤ total := by
  intro outcomes
  induction outcomes with
  | nil =>
    intro ai tok k out h
    by_cases hlen : ai.length < total
    · rw [fetch_loop_nil _ _ _ _ _ _ hlen] at h
      exact absurd h (by simp)
    · rw [fetch_loop_done _ _ _ _ _ _ _ hlen] at h
      simp at h
      rw [← h]
      simp [List.length_take]
  | cons o rest ih =>
    intro ai tok k out h
    cases o with
    | success items ntok =>
      by_cases hlen : ai.length < total
      · by_cases hexit : tokFalsy ntok ∨ total ≤ (ai ++ items).length
        · rw [fetch_loop_success_exit _ _ _ _ _ _ _ _ _ hlen hexit] at h
          simp at h
          rw [← h]
          simp [List.length_take]
        · rw [fetch_loop_success_cont _ _ _ _ _ _ _ _ _ hlen hexit] at h
          exact ih _ _ _ _ h
      · rw [fetch_loop_done _ _ _ _ _ _ _ hlen] at h
        simp at h
        rw [← h]
        simp [List.length_take]
    | failure b =>
      by_cases hlen : ai.length < total
      · rw [fetch_loop_failure _ _ _ _ _ _ _ _ hlen] at h
        exact ih _ _ _ _ h
      · rw [fetch_loop_done _ _ _ _ _ _ _ hlen] at h
        simp at h
        rw [← h]
        simp [List.length_take]

/-- Structure of a returned list: the (truncated) starting accumulator
followed by a prefix of the successful pages' items in stream order. -/
theorem fetch_loop_ok_append (total delay : Nat) (times : Nat → Nat) :
    ∀ (outcomes : List PageOutcome) (ai : List RawItem) (tok : Option String) (k : Nat)
      (out : List RawItem),
      (fetch_loop total delay times outcomes ai tok k).result = .ok out →
      ∃ ni, out = ai.take total ++ ni ∧ ni <+: successItems outcomes := by
  intro outcomes
  induction outcomes with
  | nil =>
    intro ai tok k out h
    by_cases hlen : ai.length < total
    · rw [fetch_loop_nil _ _ _ _ _ _ hlen] at h
      exact absurd h (by simp)
    · rw [fetch_loop_done _ _ _ _ _ _ _ hlen] at h
      simp at h
      exact ⟨[], by simp [← h], List.nil_prefix⟩
  | cons o rest ih =>
    intro ai tok k out h
    cases o with
    | success items ntok =>
      by_cases hlen : ai.length < total
      · have hai : ai.take total = ai := List.take_of_length_le (le_of_lt hlen)
        by_cases hexit : tokFalsy ntok ∨ total ≤ (ai ++ items).length
        · rw [fetch_loop_success_exit _ _ _ _ _ _ _ _ _ hlen hexit] at h
          simp at h
          refine ⟨items.take (total - ai.length), ?_, ?_⟩
          · rw [← h, List.take_append_eq_append_take, hai]
          · exact (List.take_prefix _ _).trans (by simp [successItems])
        · rw [fetch_loop_success_cont _ _ _ _ _ _ _ _ _ hlen hexit] at h
          obtain ⟨ni', h1, h2⟩ := ih _ _ _ _ h
          rw [not_or, not_le] at hexit
          have hacc : (ai ++ items).take total = ai ++ items :=
            List.take_of_length_le (le_of_lt hexit.2)
          refine ⟨items ++ ni', ?_, ?_⟩
          · rw [h1, hacc, hai, List.append_assoc]
          · obtain ⟨t, ht⟩ := h2
            exact ⟨t, by simp [successItems, ← ht]⟩
      · rw [fetch_loop_done _ _ _ _ _ _ _ hlen] at h
        simp at h
        exact ⟨[], by simp [← h], List.nil_prefix⟩
    | failure b =>
      by_cases hlen : ai.length < total
      · rw [fetch_loop_failure _ _ _ _ _ _ _ _ hlen] at h
        obtain ⟨ni, h1, h2⟩ := ih _ _ _ _ h
        exact ⟨ni, h1, by simpa [successItems] using h2⟩
      · rw [fetch_loop_done _ _ _ _ _ _ _ hlen] at h
        simp at h
        exact ⟨[], by simp [← h], List.nil_prefix⟩

/-- The checkpoint trace is exactly one snapshot per successful page fetch
among the consumed outcomes, each holding the items accumulated through
that page, that page's next token, and the clock value at that request. -/
theorem fetch_loop_checkpoints (total delay : Nat) (times : Nat → Nat) :
    ∀ (outcomes : List PageOutcome) (ai : List RawItem) (tok : Option String) (k : Nat),
      (fetch_loop total delay times outcomes ai tok k).checkpoints =
        expected_cps times
          (outcomes.take (fetch_loop total delay times outcomes ai tok k).reqTokens.length)
          ai k := by
  intro outcomes
  induction outcomes with
  | nil =>
    intro ai tok k
    by_cases hlen : ai.length < total
    · rw [fetch_loop_nil _ _ _ _ _ _ hlen]
      simp [expected_cps]
    · rw [fetch_loop_done _ _ _ _ _ _ _ hlen]
      simp [expected_cps]
  | cons o rest ih =>
    intro ai tok k
    cases o with
    | success items ntok =>
      by_cases hlen : ai.length < total
      · by_cases hexit : tokFalsy ntok ∨ total ≤ (ai ++ items).length
        · rw [fetch_loop_success_exit _ _ _ _ _ _ _ _ _ hlen hexit]
          simp [expected_cps]
        · rw [fetch_loop_success_cont _ _ _ _ _ _ _ _ _ hlen hexit]
          simp only [List.length_cons, List.take_succ_cons]
          rw [expected_cps]
          rw [ih]
      · rw [fetch_loop_done _ _ _ _ _ _ _ hlen]
        simp [expected_cps]
    | failure b =>
      by_cases hlen : ai.length < total
      · rw [fetch_loop_failure _ _ _ _ _ _ _ _ hlen]
        simp only [List.length_cons, List.take_succ_cons]
        rw [expected_cps]
        rw [ih]
      · rw [fetch_loop_done _ _ _ _ _ _ _ hlen]
        simp [expected_cps]

/-- If every outcome the environment can supply is a failure and the target
is unmet, the loop consumes the entire stream — one request per failure —
and is still looping at the end: there is no retry cap. -/
theorem fetch_loop_all_failures (total delay : Nat) (times : Nat → Nat) :
    ∀ (outcomes : List PageOutcome), (∀ o ∈ outcomes, ∃ b, o = .failure b) →
    ∀ (ai : List RawItem) (tok : Option String) (k : Nat), ai.length < total →
      (fetch_loop total delay times outcomes ai tok k).result = .looping ∧
      (fetch_loop total delay times outcomes ai tok k).reqTokens.length = outcomes.length := by
  intro outcomes
  induction outcomes with
  | nil =>
    intro _ ai tok k hlen
    rw [fetch_loop_nil _ _ _ _ _ _ hlen]
    exact ⟨rfl, rfl⟩
  | cons o rest ih =>
    intro hall ai tok k hlen
    obtain ⟨b, rfl⟩ := hall o (by simp)
    rw [fetch_loop_failure _ _ _ _ _ _ _ _ hlen]
    obtain ⟨h1, h2⟩ := ih (fun o ho => hall o (by simp [ho])) ai tok (k + 1) hlen
    exact ⟨h1, by simp [h2]⟩

/-- The fetch loop is blind to the quota flag of a failure: flipping it at
any position of the outcome stream changes nothing about the run. -/
theorem fetch_loop_quota_blind (total delay : Nat) (times : Nat → Nat) :
    ∀ (pre : List PageOutcome) (b b' : Bool) (post : List PageOutcome)
      (ai : List RawItem) (tok : Option String) (k : Nat),
      fetch_loop total delay times (pre ++ .failure b :: post) ai tok k =
        fetch_loop total delay times (pre ++ .failure b' :: post) ai tok k := by
  intro pre
  induction pre with
  | nil =>
    intro b b' post ai tok k
    by_cases hlen : ai.length < total
    · rw [List.nil_append, List.nil_append, fetch_loop_failure _ _ _ _ _ _ _ _ hlen,
        fetch_loop_failure _ _ _ _ _ _ _ _ hlen]
    · rw [List.nil_append, List.nil_append, fetch_loop_done _ _ _ _ _ _ _ hlen,
        fetch_loop_done _ _ _ _ _ _ _ hlen]
  | cons o pre ih =>
    intro b b' post ai tok k
    cases o with
    | success items ntok =>
      by_cases hlen : ai.length < total
      · by_cases hexit : tokFalsy ntok ∨ total ≤ (ai ++ items).length
        · rw [List.cons_append, List.cons_append,
            fetch_loop_success_exit _ _ _ _ _ _ _ _ _ hlen hexit,
            fetch_loop_success_exit _ _ _ _ _ _ _ _ _ hlen hexit]
        · rw [List.cons_append, List.cons_append,
            fetch_loop_success_cont _ _ _ _ _ _ _ _ _ hlen hexit,
            fetch_loop_success_cont _ _ _ _ _ _ _ _ _ hlen hexit, ih]
      · rw [List.cons_append, List.cons_append, fetch_loop_done _ _ _ _ _ _ _ hlen,
          fetch_loop_done _ _ _ _ _ _ _ hlen]
    | failure c =>
      by_cases hlen : ai.length < total
      · rw [List.cons_append, List.cons_append, fetch_loop_failure _ _ _ _ _ _ _ _ hlen,
          fetch_loop_failure _ _ _ _ _ _ _ _ hlen, ih]
      · rw [List.cons_append, List.cons_append, fetch_loop_done _ _ _ _ _ _ _ hlen,
          fetch_loop_done _ _ _ _ _ _ _ hlen]

/-- `analyzeLoop` raises (returns `err`) whenever some item fails to
normalize: the loop aborts at the first such item. -/
theorem analyzeLoop_err (vs : List RawItem) :
    ∀ (sh rg : List VideoData) (cs : List (String × Nat)) (vid : RawItem),
      vid ∈ vs → normalize_item vid = none → analyzeLoop sh rg cs vs = .err := by
  induction vs with
  | nil => intro _ _ _ _ hmem _; simp at hmem
  | cons v0 rest ih =>
    intro sh rg cs vid hmem hnone
    rcases List.mem_cons.1 hmem with h1 | h2
    · subst h1
      rw [analyzeLoop, hnone]
    · rw [analyzeLoop]
      cases hn : normalize_item v0 with
      | none => rfl
      | some v =>
        dsimp only
        by_cases hd : v.duration ≤ 60
        · rw [if_pos hd]; exact ih _ _ _ _ h2 hnone
        · rw [if_neg hd]; exact ih _ _ _ _ h2 hnone

/-- An absent or unparsable duration makes `normalize_item` fail. -/
theorem normalize_item_none (vid : RawItem)
    (h : vid.durationStr = none ∨
         ∃ ds, vid.durationStr = some ds ∧ parse_duration ds = none) :
    normalize_item vid = none := by
  rcases h with h | ⟨ds, h1, h2⟩
  · simp [normalize_item, h]
  · simp [normalize_item, h1, h2]

/-! ## Concrete fixtures used by witnesses and counterexamples -/

def wSnip : Snippet := ⟨"Song", "Chan", "2024-01-01T00:00:00Z", "10"⟩

def w60 : RawItem := ⟨"id60", wSnip, some ⟨some 100, some 10, some 1⟩, some "PT60S"⟩

def w6001 : RawItem := ⟨"id6001", wSnip, none, some "PT60.0001S"⟩

def w61 : RawItem := ⟨"id61", ⟨"Clip", "Chan2", "2024-01-02T00:00:00Z", "99"⟩, none, some "PT1M1S"⟩

def noDur : RawItem := ⟨"nodur", wSnip, none, none⟩

def fracItem : RawItem := ⟨"frac", wSnip, none, some "PT1M0.5S"⟩

def rec60 : VideoData :=
  ⟨"Song", "Chan", "https://youtu.be/id60", 60, 100, 10, 1, "2024-01-01T00:00:00Z", "10", "Music"⟩

def rec61 : VideoData :=
  ⟨"Clip", "Chan2", "https://youtu.be/id61", 61, 0, 0, 0, "2024-01-02T00:00:00Z", "99",
   "Unknown Category (99)"⟩

def rec6001 : VideoData :=
  ⟨"Song", "Chan", "https://youtu.be/id6001", mkRat 600001 10000, 0, 0, 0,
   "2024-01-01T00:00:00Z", "10", "Music"⟩

def fracRecord : VideoData :=
  ⟨"Song", "Chan", "https://youtu.be/frac", mkRat 121 2, 0, 0, 0,
   "2024-01-01T00:00:00Z", "10", "Music"⟩

def c1res : AnalysisResult := ⟨[rec60], [rec61], [("10", 1), ("99", 1)]⟩

def c4res : AnalysisResult := ⟨[rec60], [rec6001], [("10", 2)]⟩

/-- A generic collector item (its fields are irrelevant to the fetch loop). -/
def blank : RawItem := ⟨"v", wSnip, none, some "PT61S"⟩

/-- A run whose first page request hits a quota-exceeded error and whose
second succeeds with one item and no further pages: target 1, delay 5. -/
def quotaRun : FetchRun :=
  fetch_trending_videos 1 5 (some "key") none
    [.failure true, .success [blank] none] (fun n => n)

/-- Two successful pages of 50 items each against a target of 70. -/
def twoPages : List PageOutcome :=
  [.success (List.replicate 50 blank) (some "page2"),
   .success (List.replicate 50 blank) none]

def run70 : FetchRun := fetch_trending_videos 70 5 (some "key") none twoPages (fun n => n)

/-! ## Verified properties of the scripts -/

/-- C1: for every non-empty input on which `analyze_videos` succeeds, the
pass partitions the input completely — the shorts and regular lists together
have exactly as many records as there are input items, every category count
is at least 1, and the category counts sum to the input length. -/
theorem c1_analyze_partition (videos : List RawItem) (r : AnalysisResult)
    (h : analyze_videos videos = .ok r) :
    r.shorts.length + r.regular_videos.length = videos.length ∧
    (∀ p ∈ r.category_stats, 1 ≤ p.2) ∧
    statsSum r.category_stats = videos.length := by
  have hne : videos ≠ [] := by
    intro he
    rw [he] at h
    simp [analyze_videos] at h
  rw [analyze_videos, if_neg hne] at h
  obtain ⟨h1, h2, h3⟩ := analyzeLoop_spec videos [] [] [] r h
  have hnorm := analyzeLoop_ok_normalize videos [] [] [] r h
  refine ⟨?_, ?_, ?_⟩
  · rw [h1, h2]
    simpa using records_length videos hnorm
  · rw [h3]
    exact statsOf_pos videos [] (by simp)
  · rw [h3]
    simpa [statsSum] using statsOf_sum videos []

/-- C1 witness: the partition invariants at a concrete two-item input. -/
theorem c1_analyze_partition_witness :
    analyze_videos [w60, w61] = .ok c1res ∧
    (c1res.shorts.length + c1res.regular_videos.length = ([w60, w61] : List RawItem).length ∧
     (∀ p ∈ c1res.category_stats, 1 ≤ p.2) ∧
     statsSum c1res.category_stats = ([w60, w61] : List RawItem).length) :=
  ⟨by decide, c1_analyze_partition [w60, w61] c1res (by decide)⟩

/-- C4: on a successful pass the shorts list is exactly the normalized
records of the items with duration ≤ 60 s and the regular list exactly
those with duration > 60 s, in input order; in particular every normalized
item lands on the side its duration dictates, with the boundary inclusive
on the short side. -/
theorem c4_classification (videos : List RawItem) (r : AnalysisResult)
    (h : analyze_videos videos = .ok r) :
    r.shorts = shortRecords videos ∧ r.regular_videos = regularRecords videos ∧
    (∀ vid ∈ videos, ∀ v, normalize_item vid = some v →
      (v.duration ≤ 60 → v ∈ r.shorts) ∧ (60 < v.duration → v ∈ r.regular_videos)) := by
  have hne : videos ≠ [] := by
    intro he
    rw [he] at h
    simp [analyze_videos] at h
  rw [analyze_videos, if_neg hne] at h
  obtain ⟨h1, h2, _⟩ := analyzeLoop_spec videos [] [] [] r h
  simp only [List.nil_append] at h1 h2
  refine ⟨h1, h2, ?_⟩
  intro vid hmem v hn
  constructor
  · intro hd
    rw [h1]
    exact List.mem_filterMap.2 ⟨vid, hmem, by simp [hn, Option.filter, hd]⟩
  · intro hd
    rw [h2]
    exact List.mem_filterMap.2 ⟨vid, hmem, by simp [hn, Option.filter, hd]⟩

/-- C4 witness: a 60-second item classifies as a short and a 60.0001-second
item as a regular video. -/
theorem c4_classification_witness :
    analyze_videos [w60, w6001] = .ok c4res ∧
    c4res.shorts = [rec60] ∧ c4res.regular_videos = [rec6001] ∧
    (c4res.shorts = shortRecords [w60, w6001] ∧
     c4res.regular_videos = regularRecords [w60, w6001] ∧
     (∀ vid ∈ ([w60, w6001] : List RawItem), ∀ v, normalize_item vid = some v →
       (v.duration ≤ 60 → v ∈ c4res.shorts) ∧ (60 < v.duration → v ∈ c4res.regular_videos))) :=
  ⟨by decide, by decide, by decide, c4_classification [w60, w6001] c4res (by decide)⟩

/-- C9: if any input item's duration field is absent or unparsable, the
whole analysis pass fails — `analyze_videos` raises out of the loop, and in
particular never returns a (partial) `AnalysisResult`. -/
theorem c9_malformed_duration (videos : List RawItem) (vid : RawItem)
    (hmem : vid ∈ videos)
    (hbad : vid.durationStr = none ∨
            ∃ ds, vid.durationStr = some ds ∧ parse_duration ds = none) :
    analyze_videos videos = .err ∧ ∀ r, analyze_videos videos ≠ .ok r := by
  have hne : videos ≠ [] := by
    intro he
    subst he
    simp at hmem
  have herr : analyze_videos videos = .err := by
    rw [analyze_videos, if_neg hne]
    exact analyzeLoop_err videos [] [] [] vid hmem (normalize_item_none vid hbad)
  exact ⟨herr, fun r hr => by rw [herr] at hr; exact absurd hr (by simp)⟩

/-- C9 witness: one item with no duration field poisons the whole pass. -/
theorem c9_malformed_duration_witness :
    analyze_videos [w60, noDur] = .err ∧ ∀ r, analyze_videos [w60, noDur] ≠ .ok r :=
  c9_malformed_duration [w60, noDur] noDur (by decide) (Or.inl rfl)

/-- C10 counterexample: the record built for an item with ISO-8601 duration
`PT1M0.5S` carries duration 60.5 s — `analyze_videos` stores
`total_seconds()` verbatim, so the duration of a normalized record is not in
general a whole number of seconds (its denominator is 2, not 1). -/
theorem c10_fractional_duration :
    normalize_item fracItem = some fracRecord ∧ fracRecord.duration.den ≠ 1 := by
  decide

/-- C10 (amended): every normalized record matches the NormalizedRecord
shape except for whole-second durations: the URL is the canonical
`https://youtu.be/<id>`, the view/like/comment counts default to 0 whenever
the statistics object is absent or lacks the field, the category name is
the mapped human-readable name for a known id and `Unknown Category (<id>)`
(never an exception) otherwise, and the duration is exactly the parsed
ISO-8601 duration in seconds, possibly fractional. -/
theorem c10_normalized_record (vid : RawItem) (v : VideoData)
    (h : normalize_item vid = some v) :
    v.url = "https://youtu.be/" ++ vid.id ∧
    (vid.statistics = none → v.views = 0 ∧ v.likes = 0 ∧ v.comments = 0) ∧
    (∀ st, vid.statistics = some st →
      v.views = st.viewCount.getD 0 ∧ v.likes = st.likeCount.getD 0 ∧
      v.comments = st.commentCount.getD 0) ∧
    v.categoryName = get_category_name vid.snippet.categoryId ∧
    (∀ n, YOUTUBE_CATEGORIES.lookup vid.snippet.categoryId = some n → v.categoryName = n) ∧
    (YOUTUBE_CATEGORIES.lookup vid.snippet.categoryId = none →
      v.categoryName = "Unknown Category (" ++ vid.snippet.categoryId ++ ")") ∧
    (∀ ds q, vid.durationStr = some ds → parse_duration ds = some q → v.duration = q) := by
  cases hds : vid.durationStr with
  | none => rw [normalize_item, hds] at h; exact absurd h (by simp)
  | some ds =>
    rw [normalize_item, hds] at h
    dsimp only at h
    cases hp : parse_duration ds with
    | none => rw [hp] at h; exact absurd h (by simp)
    | some q =>
      rw [hp] at h
      dsimp only at h
      obtain rfl := Option.some.inj h
      refine ⟨rfl, ?_, ?_, rfl, ?_, ?_, ?_⟩
      · intro h0; rw [h0]; exact ⟨rfl, rfl, rfl⟩
      · intro st h0; rw [h0]; exact ⟨rfl, rfl, rfl⟩
      · intro n hl; simp [get_category_name, hl]
      · intro hl; simp [get_category_name, hl]
      · intro ds' q' hds' hq'
        obtain rfl := Option.some.inj hds'
        rw [hp] at hq'
        exact Option.some.inj hq'

/-- C10 witness: the amended record shape at a concrete item. -/
theorem c10_normalized_record_witness :
    rec60.url = "https://youtu.be/" ++ w60.id ∧
    (w60.statistics = none → rec60.views = 0 ∧ rec60.likes = 0 ∧ rec60.comments = 0) ∧
    (∀ st, w60.statistics = some st →
      rec60.views = st.viewCount.getD 0 ∧ rec60.likes = st.likeCount.getD 0 ∧
      rec60.comments = st.commentCount.getD 0) ∧
    rec60.categoryName = get_category_name w60.snippet.categoryId ∧
    (∀ n, YOUTUBE_CATEGORIES.lookup w60.snippet.categoryId = some n → rec60.categoryName = n) ∧
    (YOUTUBE_CATEGORIES.lookup w60.snippet.categoryId = none →
      rec60.categoryName = "Unknown Category (" ++ w60.snippet.categoryId ++ ")") ∧
    (∀ ds q, w60.durationStr = some ds → parse_duration ds = some q → rec60.duration = q) :=
  c10_normalized_record w60 rec60 (by decide)

/-- C2 counterexample: with target 1, a quota-exceeded failure on the first
page request and a successful second page, the collector does not terminate
at the quota error: it sleeps the doubled delay (2·5 = 10), issues a second
request (two request tokens in the trace), and returns the item fetched
after the quota error — not the empty accumulation held when the quota
error was raised. -/
theorem c2_quota_counterexample :
    quotaRun.result = .ok [blank] ∧ quotaRun.result ≠ .ok [] ∧
    quotaRun.reqTokens.length = 2 ∧ quotaRun.sleeps = [10] := by
  decide

/-- C2 (amended): a quota-exceeded error during a page request is handled
exactly like any other failure: the loop is blind to the quota flag of a
failure anywhere in the stream, and on a failure it sleeps twice the
inter-page delay and retries the same page token, continuing the loop with
unchanged result rather than terminating with the accumulated items. -/
theorem c2_quota_retry :
    (∀ (total delay : Nat) (times : Nat → Nat) (pre : List PageOutcome) (b b' : Bool)
       (post : List PageOutcome) (ai : List RawItem) (tok : Option String) (k : Nat),
       fetch_loop total delay times (pre ++ .failure b :: post) ai tok k =
         fetch_loop total delay times (pre ++ .failure b' :: post) ai tok k) ∧
    (∀ (total delay : Nat) (times : Nat → Nat) (b : Bool) (rest : List PageOutcome)
       (ai : List RawItem) (tok : Option String) (k : Nat), ai.length < total →
       (fetch_loop total delay times (.failure b :: rest) ai tok k).result =
         (fetch_loop total delay times rest ai tok (k + 1)).result ∧
       (fetch_loop total delay times (.failure b :: rest) ai tok k).reqTokens =
         tok :: (fetch_loop total delay times rest ai tok (k + 1)).reqTokens ∧
       (fetch_loop total delay times (.failure b :: rest) ai tok k).sleeps =
         2 * delay :: (fetch_loop total delay times rest ai tok (k + 1)).sleeps) := by
  refine ⟨fun t d ti => fetch_loop_quota_blind t d ti, ?_⟩
  intro total delay times b rest ai tok k hlen
  rw [fetch_loop_failure _ _ _ _ _ _ _ _ hlen]
  exact ⟨rfl, rfl, rfl⟩

/-- C2 witness: the amended behavior at a concrete failing-then-succeeding
stream. -/
theorem c2_quota_retry_witness :
    fetch_loop 1 5 (fun n => n) ([] ++ .failure true :: [.success [blank] none]) [] none 0 =
      fetch_loop 1 5 (fun n => n) ([] ++ .failure false :: [.success [blank] none]) [] none 0 ∧
    ((fetch_loop 1 5 (fun n => n) (.failure true :: [.success [blank] none]) [] none 0).result =
       (fetch_loop 1 5 (fun n => n) [.success [blank] none] [] none 1).result ∧
     (fetch_loop 1 5 (fun n => n) (.failure true :: [.success [blank] none]) [] none 0).reqTokens =
       none :: (fetch_loop 1 5 (fun n => n) [.success [blank] none] [] none 1).reqTokens ∧
     (fetch_loop 1 5 (fun n => n) (.failure true :: [.success [blank] none]) [] none 0).sleeps =
       2 * 5 :: (fetch_loop 1 5 (fun n => n) [.success [blank] none] [] none 1).sleeps) :=
  ⟨c2_quota_retry.1 1 5 (fun n => n) [] true false [.success [blank] none] [] none 0,
   c2_quota_retry.2 1 5 (fun n => n) true [.success [blank] none] [] none 0 (by decide)⟩

/-- C3: every list `fetch_trending_videos` returns has length at most
`total_videos` — both loop exits return `all_items[:total_videos]` — and in
particular a 70-item target served by two 50-item pages returns exactly 70
items. -/
theorem c3_fetch_truncation :
    (∀ (total delay : Nat) (apiKey : Option String) (cp : Option CheckpointState)
       (outcomes : List PageOutcome) (times : Nat → Nat) (out : List RawItem),
       (fetch_trending_videos total delay apiKey cp outcomes times).result = .ok out →
       out.length ≤ total) ∧
    run70.result = .ok (List.replicate 70 blank) ∧
    (List.replicate 70 blank).length = 70 := by
  refine ⟨?_, by decide, by decide⟩
  intro total delay apiKey cp outcomes times out h
  cases apiKey with
  | none => exact absurd h (by simp [fetch_trending_videos])
  | some key =>
    rw [fetch_trending_videos.eq_def] at h
    dsimp only at h
    by_cases hkey : key = ""
    · rw [if_pos hkey] at h
      exact absurd h (by simp)
    · rw [if_neg hkey] at h
      exact fetch_loop_ok_length total delay times outcomes _ _ 0 out h

/-- C3 witness: the length bound at a concrete run. -/
theorem c3_fetch_truncation_witness :
    (fetch_trending_videos 1 5 (some "key") none [.failure true, .success [blank] none]
        (fun n => n)).result = .ok [blank] ∧
    ([blank] : List RawItem).length ≤ 1 :=
  ⟨by decide,
   c3_fetch_truncation.1 1 5 (some "key") none [.failure true, .success [blank] none]
     (fun n => n) [blank] (by decide)⟩

/-- C5: the fetch loop's retry on non-quota page failures has no bound at
all: for an arbitrarily long stream of persistent failures the loop issues
one request per failure, never exits, and is still looping when the stream
runs out — there is no maximum retry count in the code (the sibling script
`main.py` caps attempts at 10, and the specification flags this loop as the
latent defect). -/
theorem c5_unbounded_retry (outcomes : List PageOutcome)
    (hall : ∀ o ∈ outcomes, ∃ b, o = .failure b)
    (total delay : Nat) (times : Nat → Nat) (ai : List RawItem) (tok : Option String)
    (k : Nat) (hlen : ai.length < total) :
    (fetch_loop total delay times outcomes ai tok k).result = .looping ∧
    (fetch_loop total delay times outcomes ai tok k).reqTokens.length = outcomes.length :=
  fetch_loop_all_failures total delay times outcomes hall ai tok k hlen

/-- C5 witness: three persistent failures yield three requests and a loop
that still has not terminated. -/
theorem c5_unbounded_retry_witness :
    (fetch_loop 200 5 (fun n => n) [.failure false, .failure false, .failure false]
        [] none 0).result = .looping ∧
    (fetch_loop 200 5 (fun n => n) [.failure false, .failure false, .failure false]
        [] none 0).reqTokens.length = 3 :=
  c5_unbounded_retry [.failure false, .failure false, .failure false] (by decide)
    200 5 (fun n => n) [] none 0 (by decide)

/-- C6: a run resumed from a checkpoint of N ≤ target items that returns a
list yields exactly the checkpoint's items, verbatim and in order, followed
by newly fetched items — a prefix of the successful pages' items in the
order the API returned them. -/
theorem c6_resume_prefix (total delay : Nat) (key : String) (hk : ¬ key = "")
    (cp : CheckpointState) (outcomes : List PageOutcome) (times : Nat → Nat)
    (out : List RawItem) (hN : cp.videos.length ≤ total)
    (h : (fetch_trending_videos total delay (some key) (some cp) outcomes times).result =
          .ok out) :
    ∃ newItems, out = cp.videos ++ newItems ∧ newItems <+: successItems outcomes := by
  rw [fetch_trending_videos.eq_def] at h
  dsimp only at h
  rw [if_neg hk] at h
  obtain ⟨ni, h1, h2⟩ :=
    fetch_loop_ok_append total delay times outcomes cp.videos cp.next_page_token 0 out h
  rw [List.take_of_length_le hN] at h1
  exact ⟨ni, h1, h2⟩

/-- C6 witness: resuming from a one-item checkpoint and fetching one more
page returns the checkpointed item first. -/
theorem c6_resume_prefix_witness :
    ∃ newItems, [blank, w60] = ([blank] : List RawItem) ++ newItems ∧
      newItems <+: successItems [.success [w60] none] :=
  c6_resume_prefix 2 5 "key" (by decide) ⟨[blank], some "t"⟩ [.success [w60] none]
    (fun n => n) [blank, w60] (by decide) (by decide)

/-- C7 counterexample: the checkpoint dict written after the successful page
of a concrete run has exactly the keys `videos`, `next_page_token` and
`timestamp` — the persisted snapshot contains no request-counter field, so
it does not include an incremented request counter as claimed. -/
theorem c7_no_request_counter :
    quotaRun.checkpoints.map (List.map Prod.fst) =
      [["videos", "next_page_token", "timestamp"]] := by
  decide

/-- C7 (amended): after every successful page fetch — and before the loop
decides whether to continue — the collector persists one checkpoint
snapshot holding the items accumulated through that page, that page's next
cursor, and the wall-clock timestamp at that request; no request counter is
persisted.  The checkpoint trace is exactly one such snapshot per
successful page among the consumed outcomes. -/
theorem c7_checkpoint_schedule (total delay : Nat) (key : String) (hk : ¬ key = "")
    (cp : Option CheckpointState) (outcomes : List PageOutcome) (times : Nat → Nat) :
    (fetch_trending_videos total delay (some key) cp outcomes times).checkpoints =
      expected_cps times
        (outcomes.take
          (fetch_trending_videos total delay (some key) cp outcomes times).reqTokens.length)
        (match cp with | some c => c.videos | none => []) 0 := by
  rw [fetch_trending_videos.eq_def]
  dsimp only
  rw [if_neg hk]
  exact fetch_loop_checkpoints total delay times outcomes _ _ 0

/-- C7 witness: the persistence schedule at a concrete run. -/
theorem c7_checkpoint_schedule_witness :
    (fetch_trending_videos 1 5 (some "key") none
        [.failure true, .success [blank] none] (fun n => n)).checkpoints =
      expected_cps (fun n => n)
        (([.failure true, .success [blank] none] : List PageOutcome).take
          (fetch_trending_videos 1 5 (some "key") none
            [.failure true, .success [blank] none] (fun n => n)).reqTokens.length)
        (match (none : Option CheckpointState) with | some c => c.videos | none => []) 0 :=
  c7_checkpoint_schedule 1 5 "key" (by decide) none
    [.failure true, .success [blank] none] (fun n => n)

/-- C8: a missing API credential (absent, or empty by Python falsiness)
makes `fetch_trending_videos` return the configuration-error result with
empty traces: no page request is issued, no checkpoint is written, no sleep
and no retry happens, and the result is distinguishable from every
successful collection. -/
theorem c8_missing_key (total delay : Nat) (cp : Option CheckpointState)
    (outcomes : List PageOutcome) (times : Nat → Nat) :
    fetch_trending_videos total delay none cp outcomes times =
      ⟨.configError, [], [], []⟩ ∧
    fetch_trending_videos total delay (some "") cp outcomes times =
      ⟨.configError, [], [], []⟩ ∧
    ∀ items : List RawItem, (FetchResult.configError : FetchResult) ≠ .ok items := by
  refine ⟨rfl, ?_, fun items h => absurd h (by simp)⟩
  rw [fetch_trending_videos.eq_def]
  dsimp only
  rw [if_pos rfl]
